import Mathlib

/-!
Verification development for the WeRoBot handler registry, dispatch engine,
filter adapters and signature verifier (src/werobot/robot.py).

Modelling conventions.  Python callables become values of the `Handler`
inductive, indexed by declared arity; an arity-2 callback receives the
session object and the function it returns models the in-place mutation it
performs on that object.  Raising is modelled by `Except.error`; a falsy
return value (None, empty string, ...) is modelled as `none`.  The handler
registry `_handlers` is an association list from type tag to the list of
registered `(callback, arity)` pairs, mirroring the Python dict.  The
session store is an association list from the binary sender identifier to
the stored session object; byte strings are modelled as `String` (UTF-8
equality and truthiness coincide).  `get_reply` is embedded as a pure
function that, besides the reply, reports the final store, the sequence of
invoked handler positions, the store writes and reads performed, and
whether an exception was logged.
-/

namespace WeRoBot

/-- Inbound message: type tag, optional sender identifier (a `none` source
models a message object without a source attribute), text content and event
key. -/
structure Message where
  type : String
  source : Option String
  content : String
  key : String

/-- Argument values the dispatch loop may pass to a handler: the message or
the session object. -/
inductive PyArg (σ : Type) where
  | msg (m : Message)
  | sess (s : Option σ)

/-- A registered callback, indexed by its declared arity. -/
inductive Handler (σ ρ : Type) where
  | h0 (f : Unit → Except Unit (Option ρ))
  | h1 (f : Message → Except Unit (Option ρ))
  | h2 (f : Message → Option σ → Except Unit (Option ρ × (σ → σ)))

variable {σ ρ : Type}

/-- Declared arity of a callback, as computed by `len(getargspec(func).args)`
at registration time. -/
def Handler.argc : Handler σ ρ → Nat
  | .h0 _ => 0
  | .h1 _ => 1
  | .h2 _ => 2

/-- Argument list built by the dispatch loop: `[message, session][:argc]`
(robot.py line 215). -/
def buildArgs (m : Message) (s : Option σ) (n : Nat) : List (PyArg σ) :=
  ([PyArg.msg m, PyArg.sess s]).take n

/-- Calling a handler on an argument list, `handler(*args)`.  A list that
does not fit the declared parameters raises (TypeError), modelled as
`Except.error`.  The second component of a successful result is the
in-place mutation performed on the session object. -/
def Handler.call : Handler σ ρ → List (PyArg σ) → Except Unit (Option ρ × (σ → σ))
  | .h0 f, [] => (f ()).map (fun r => (r, fun s => s))
  | .h1 f, [.msg m] => (f m).map (fun r => (r, fun s => s))
  | .h2 f, [.msg m, .sess s] => f m s
  | _, _ => .error ()

/-- The known message type tags (robot.py lines 29-30). -/
def message_types : List String :=
  ["subscribe", "unsubscribe", "click", "view",
   "text", "image", "link", "location", "voice"]

/-- Lookup in a Python dict modelled as an association list; `none` models a
KeyError on subscripting. -/
def lookupKey {α : Type} : List (String × α) → String → Option α
  | [], _ => none
  | (k, v) :: rest, key => if k == key then some v else lookupKey rest key

/-- Overwrite the value stored under an existing key. -/
def setKey {α : Type} : List (String × α) → String → α → List (String × α)
  | [], _, _ => []
  | (k, v) :: rest, key, nv =>
    if k == key then (k, nv) :: rest else (k, v) :: setKey rest key nv

/-- The handler registry `_handlers`: tag to list of (callback, arity). -/
abbrev Registry (σ ρ : Type) := List (String × List (Handler σ ρ × Nat))

/-- Initial registry built in `__init__` (robot.py lines 41-42): every known
tag and the synthetic tag all, each mapped to an empty list. -/
def initRegistry (σ ρ : Type) : Registry σ ρ :=
  (message_types.map (fun k => (k, ([] : List (Handler σ ρ × Nat))))) ++ [("all", [])]

/-- Embeds `BaseRoBot.add_handler` (robot.py lines 188-195): appends the
pair (func, declared arity) to the list stored under the given tag.
Subscripting a missing tag raises KeyError, modelled as `Except.error`. -/
def add_handler (reg : Registry σ ρ) (func : Handler σ ρ) (type : String) :
    Except Unit (Registry σ ρ) :=
  match lookupKey reg type with
  | none => .error ()
  | some l => .ok (setKey reg type (l ++ [(func, func.argc)]))

/-- Embeds `BaseRoBot.get_handlers` (robot.py lines 197-198): the list under
the given tag concatenated with the list under all.  A missing tag raises
KeyError. -/
def get_handlers (reg : Registry σ ρ) (type : String) :
    Except Unit (List (Handler σ ρ × Nat)) :=
  match lookupKey reg type, lookupKey reg "all" with
  | some a, some b => .ok (a ++ b)
  | _, _ => .error ()

/-- Runs a sequence of registrations from a starting registry, stopping at
the first failure. -/
def registerAll : Registry σ ρ → List (Handler σ ρ × String) → Except Unit (Registry σ ρ)
  | reg, [] => .ok reg
  | reg, (f, t) :: rest =>
    match add_handler reg f t with
    | .error e => .error e
    | .ok reg₁ => registerAll reg₁ rest

/-- The (callback, arity) pairs a registration sequence contributes to the
tag `k`, in registration order. -/
def specOf (entries : List (Handler σ ρ × String)) (k : String) :
    List (Handler σ ρ × Nat) :=
  (entries.filter (fun e => e.2 == k)).map (fun e => (e.1, e.1.argc))

/-- Modelled from the spec: the session store collaborator (the default
`FileStorage` lives outside src/).  A mapping from binary sender identifier
to stored session object; reading a missing identifier yields no session. -/
abbrev Store (σ : Type) := List (String × Option σ)

/-- Modelled from the spec: store read, `session_storage[id]`. -/
def storeGet (st : Store σ) (k : String) : Option σ :=
  (lookupKey st k).getD none

/-- Modelled from the spec: store write, `session_storage[id] = session`. -/
def storeSet (st : Store σ) (k : String) (v : Option σ) : Store σ :=
  match lookupKey st k with
  | some _ => setKey st k v
  | none => st ++ [(k, v)]

/-- Truthiness of the binary identifier `id` in `if session_storage and id`:
None and the empty byte string are falsy. -/
def truthyId : Option String → Bool
  | none => false
  | some s => !(s == "")

/-- Observable outcome of one dispatch: the reply, the final store, the
final value of the session local, the positions of the handlers that were
invoked, the store writes and reads performed (in order), and whether the
except branch logged an exception. -/
structure DispatchResult (σ ρ : Type) where
  reply : Option ρ
  store : Option (Store σ)
  sess : Option σ
  invoked : List Nat
  writes : List (String × Option σ)
  reads : List String
  logged : Bool

/-- Embeds the try/for loop of `BaseRoBot.get_reply` (robot.py lines
213-222).  For each (handler, args_count) pair: build the truncated
argument list, invoke the handler; on an exception log and return None; on
success persist the session when the store and the identifier are truthy,
then return the reply if it is truthy, else continue. -/
def runHandlers (m : Message) (idv : Option String) :
    List (Handler σ ρ × Nat) → Option σ → Option (Store σ) → Nat → DispatchResult σ ρ
  | [], sess, stor, _ => ⟨none, stor, sess, [], [], [], false⟩
  | (h, n) :: rest, sess, stor, i =>
    match h.call (buildArgs m sess n) with
    | .error _ => ⟨none, stor, sess, [i], [], [], true⟩
    | .ok (r, eff) =>
      let sess₁ := sess.map eff
      let key := idv.getD ""
      let doW := stor.isSome && truthyId idv
      let stor₁ := if doW then stor.map (fun st => storeSet st key sess₁) else stor
      let ws : List (String × Option σ) := if doW then [(key, sess₁)] else []
      match r with
      | some rep => ⟨some rep, stor₁, sess₁, [i], ws, [], false⟩
      | none =>
        let res := runHandlers m idv rest sess₁ stor₁ (i + 1)
        ⟨res.reply, res.store, res.sess, i :: res.invoked,
         ws ++ res.writes, res.reads, res.logged⟩

/-- Embeds the session resolution of `get_reply` (robot.py lines 204-210):
when a store is configured and the message has a source attribute, set the
identifier to the binary source and read its session from the store. -/
def sessionInit (stor : Option (Store σ)) (m : Message) :
    Option String × Option σ × List String :=
  match stor, m.source with
  | some st, some src => (some src, storeGet st src, [src])
  | _, _ => (none, none, [])

/-- Embeds `BaseRoBot.get_reply` (robot.py lines 200-222): resolve the
session, resolve the handler list for the message type (a KeyError there
propagates, being outside the try), then run the loop. -/
def get_reply (reg : Registry σ ρ) (stor : Option (Store σ)) (m : Message) :
    Except Unit (DispatchResult σ ρ) :=
  let si := sessionInit stor m
  match get_handlers reg m.type with
  | .error e => .error e
  | .ok hs =>
    let res := runHandlers m si.1 hs si.2.1 stor 0
    .ok { res with reads := si.2.2 ++ res.reads }

/-- Lexicographic order on code-point sequences, the order Python uses to
compare strings. -/
def lexLe : List Char → List Char → Bool
  | [], _ => true
  | _ :: _, [] => false
  | a :: as, b :: bs =>
    if a.toNat < b.toNat then true
    else if b.toNat < a.toNat then false
    else lexLe as bs

/-- Python string comparison `a <= b`. -/
def strLe (a b : String) : Bool := lexLe a.data b.data

/-- Insert a string into an ascending list, keeping it ascending. -/
def insertSorted (x : String) : List String → List String
  | [] => [x]
  | y :: ys => if strLe x y then x :: y :: ys else y :: insertSorted x ys

/-- Ascending stable sort, modelling `list.sort()` on strings
(robot.py line 226). -/
def pySort (l : List String) : List String := l.foldr insertSorted []

/-- Modelled from the spec: UTF-8 encoding of one code point, the byte
expansion `to_binary` performs (werobot/utils.py lives outside src/; the
spec fixes the encoding to UTF-8). -/
def utf8Char (c : Nat) : List Nat :=
  if c < 128 then [c]
  else if c < 2048 then [192 + c / 64, 128 + c % 64]
  else if c < 65536 then [224 + c / 4096, 128 + c / 64 % 64, 128 + c % 64]
  else [240 + c / 262144, 128 + c / 4096 % 64, 128 + c / 64 % 64, 128 + c % 64]

/-- Modelled from the spec: the UTF-8 bytes of a string, `to_binary`. -/
def utf8Bytes (s : String) : List Nat :=
  (s.data.map (fun ch => utf8Char ch.toNat)).flatten

/-- Reduction to a 32-bit word. -/
def w32 (n : Nat) : Nat := n % 4294967296

/-- Left rotation of a 32-bit word by `k` places. -/
def rotl (k n : Nat) : Nat := w32 ((n <<< k) + (n >>> (32 - k)))

/-- Big-endian byte expansion of a value into `k` bytes. -/
def beBytes (k v : Nat) : List Nat :=
  (List.range k).map (fun i => v / 2 ^ (8 * (k - 1 - i)) % 256)

/-- Modelled from the spec: SHA-1 padding (FIPS 180); `hashlib.sha1` is
outside the repository, so the digest is modelled from the standard it
names.  Appends the 0x80 marker, zero bytes up to 56 mod 64, and the
big-endian 64-bit bit length. -/
def sha1Pad (msg : List Nat) : List Nat :=
  msg ++ [128] ++ List.replicate ((120 - (msg.length + 1) % 64) % 64) 0
      ++ beBytes 8 (8 * msg.length)

/-- Split a byte list into 64-byte chunks, with an explicit fuel. -/
def chunksAux : Nat → List Nat → List (List Nat)
  | 0, _ => []
  | _, [] => []
  | fuel + 1, l => l.take 64 :: chunksAux fuel (l.drop 64)

/-- The 64-byte blocks of a padded message. -/
def chunks64 (l : List Nat) : List (List Nat) := chunksAux l.length l

/-- Big-endian 32-bit words of a block. -/
def toWords : List Nat → List Nat
  | b0 :: b1 :: b2 :: b3 :: rest =>
    (b0 * 16777216 + b1 * 65536 + b2 * 256 + b3) :: toWords rest
  | _ => []

/-- Message-schedule extension: push `fuel` more words, each a rotation of
the xor of four earlier words. -/
def sha1Extend : Array Nat → Nat → Array Nat
  | ws, 0 => ws
  | ws, fuel + 1 =>
    let i := ws.size
    let w := rotl 1 ((ws.getD (i - 3) 0) ^^^ (ws.getD (i - 8) 0)
                     ^^^ (ws.getD (i - 14) 0) ^^^ (ws.getD (i - 16) 0))
    sha1Extend (ws.push w) fuel

/-- One SHA-1 round. -/
def sha1Step (ws : Array Nat) (st : Nat × Nat × Nat × Nat × Nat) (i : Nat) :
    Nat × Nat × Nat × Nat × Nat :=
  match st with
  | (a, b, c, d, e) =>
    let f :=
      if i < 20 then (b &&& c) ||| ((b ^^^ 4294967295) &&& d)
      else if i < 40 then b ^^^ c ^^^ d
      else if i < 60 then (b &&& c) ||| (b &&& d) ||| (c &&& d)
      else b ^^^ c ^^^ d
    let k :=
      if i < 20 then 1518500249
      else if i < 40 then 1859775393
      else if i < 60 then 2400959708
      else 3395469782
    (w32 (rotl 5 a + f + e + k + ws.getD i 0), a, rotl 30 b, c, d)

/-- Compression of one 64-byte block into the running state. -/
def sha1Block (h : Nat × Nat × Nat × Nat × Nat) (block : List Nat) :
    Nat × Nat × Nat × Nat × Nat :=
  let ws := sha1Extend (toWords block).toArray 64
  match (List.range 80).foldl (sha1Step ws) h, h with
  | (a, b, c, d, e), (h0, h1, h2, h3, h4) =>
    (w32 (h0 + a), w32 (h1 + b), w32 (h2 + c), w32 (h3 + d), w32 (h4 + e))

/-- SHA-1 digest of a byte list, as 20 bytes. -/
def sha1Bytes (msg : List Nat) : List Nat :=
  match (chunks64 (sha1Pad msg)).foldl sha1Block
      (1732584193, 4023233417, 2562383102, 271733878, 3285377520) with
  | (h0, h1, h2, h3, h4) =>
    beBytes 4 h0 ++ beBytes 4 h1 ++ beBytes 4 h2 ++ beBytes 4 h3 ++ beBytes 4 h4

/-- Lowercase hexadecimal digit. -/
def hexDigit (n : Nat) : Char :=
  if n < 10 then Char.ofNat (48 + n) else Char.ofNat (87 + n)

/-- Lowercase hexadecimal rendering of a byte list. -/
def toHex (bytes : List Nat) : String :=
  String.mk ((bytes.map (fun b => [hexDigit (b / 16), hexDigit (b % 16)])).flatten)

/-- Lowercase hexadecimal SHA-1 digest, `hashlib.sha1(x).hexdigest()`. -/
def sha1_hexdigest (msg : List Nat) : String := toHex (sha1Bytes msg)

/-- Embeds `BaseRoBot.check_signature` (robot.py lines 224-229): sort the
three strings, join them, take the UTF-8 bytes, compare the hex digest with
the supplied signature. -/
def check_signature (token timestamp nonce signature : String) : Bool :=
  sha1_hexdigest (utf8Bytes (String.join (pySort [token, timestamp, nonce])))
    == signature

/-- Content check for a literal filter target (robot.py lines 155-156):
exact equality of the message content with the literal. -/
def contentEq (lit : String) : Message → Bool := fun m => m.content == lit

/-- The handler the content filter registers (robot.py lines 172-175): an
arity-2 callback that delegates to the wrapped handler with the truncated
argument list when the check passes, and returns None otherwise. -/
def filteredHandler (check : Message → Bool) (f : Handler σ ρ) : Handler σ ρ :=
  .h2 (fun m s =>
    if check m then f.call (buildArgs m s f.argc)
    else .ok (none, fun x => x))

/-- A target passed to `filter`: a string literal, an object with a callable
match attribute, or anything else (invalid). -/
inductive FilterTarget where
  | lit (s : String)
  | rex (f : String → Bool)
  | bad

/-- Validation of a single filter target (robot.py lines 151-163): a string
yields the equality check, a matcher yields the match check, anything else
raises TypeError. -/
def filter_validate : FilterTarget → Except Unit (Message → Bool)
  | .lit s => .ok (contentEq s)
  | .rex f => .ok (fun m => f m.content)
  | .bad => .error ()

/-- The check a valid target validates to. -/
def chkOf : FilterTarget → (Message → Bool)
  | .lit s => contentEq s
  | .rex f => fun m => f m.content
  | .bad => fun _ => false

/-- One single-target filter application `self.filter(t)(f)` as run inside
the multi-target loop (robot.py lines 146-177): validate the target, then
register the filtered handler under text.  The boolean reports whether an
exception was raised; on an exception the registry is left as it was. -/
def filter_single_step (t : FilterTarget) (f : Handler σ ρ) (reg : Registry σ ρ) :
    Registry σ ρ × Bool :=
  match filter_validate t with
  | .error _ => (reg, true)
  | .ok chk =>
    match add_handler reg (filteredHandler chk f) "text" with
    | .error _ => (reg, true)
    | .ok reg₁ => (reg₁, false)

/-- The multi-target decorator body (robot.py lines 166-169): for each
target run `self.filter(x)(f)`, stopping at the first exception with the
registrations made so far kept. -/
def applyMulti (f : Handler σ ρ) : List FilterTarget → Registry σ ρ → Registry σ ρ × Bool
  | [], reg => (reg, false)
  | t :: rest, reg =>
    match filter_single_step t f reg with
    | (reg₁, true) => (reg₁, true)
    | (reg₁, false) => applyMulti f rest reg₁

/-- Embeds the call `self.filter(*args)` itself (robot.py lines 139-179):
with more than one target it immediately returns the decorator, deferring
all validation; with exactly one target it validates now and returns the
registering decorator; with no targets, `args[0]` raises IndexError. -/
def filter_call (args : List FilterTarget) :
    Except Unit (Handler σ ρ → Registry σ ρ → Registry σ ρ × Bool) :=
  if 1 < args.length then .ok (fun f reg => applyMulti f args reg)
  else
    match args with
    | [t] =>
      (filter_validate t).map (fun chk => fun f reg =>
        match add_handler reg (filteredHandler chk f) "text" with
        | .error _ => (reg, true)
        | .ok reg₁ => (reg₁, false))
    | _ => .error ()

theorem lookup_setKey {α : Type} (reg : List (String × α)) (k k₁ : String) (v : α) :
    lookupKey (setKey reg k v) k₁ =
      if k₁ = k then (lookupKey reg k).map (fun _ => v) else lookupKey reg k₁ := by
  induction reg with
  | nil => by_cases h : k₁ = k <;> simp [setKey, lookupKey, h]
  | cons p rest ih =>
    obtain ⟨pk, pv⟩ := p
    by_cases h1 : pk = k <;> by_cases h2 : k₁ = k <;>
      by_cases h3 : pk = k₁ <;>
      simp_all [setKey, lookupKey]

theorem add_handler_lookup (reg : Registry σ ρ) (f : Handler σ ρ) (t : String)
    (reg₁ : Registry σ ρ) (h : add_handler reg f t = .ok reg₁) (k : String) :
    lookupKey reg₁ k =
      if k = t then (lookupKey reg t).map (fun lst => lst ++ [(f, f.argc)])
      else lookupKey reg k := by
  unfold add_handler at h
  cases hl : lookupKey reg t with
  | none => rw [hl] at h; exact absurd h (by simp)
  | some l =>
    rw [hl] at h
    simp only [Except.ok.injEq] at h
    subst h
    rw [lookup_setKey, hl]
    by_cases hk : k = t <;> simp [hk]

theorem specOf_cons (f : Handler σ ρ) (t k : String)
    (rest : List (Handler σ ρ × String)) :
    specOf ((f, t) :: rest) k =
      if t = k then (f, f.argc) :: specOf rest k else specOf rest k := by
  by_cases h : t = k <;> simp [specOf, List.filter_cons, h]

theorem registerAll_lookup (entries : List (Handler σ ρ × String)) :
    ∀ (reg reg₁ : Registry σ ρ), registerAll reg entries = .ok reg₁ →
    ∀ k, lookupKey reg₁ k = (lookupKey reg k).map (fun l => l ++ specOf entries k) := by
  induction entries with
  | nil =>
    intro reg reg₁ h k
    unfold registerAll at h
    simp only [Except.ok.injEq] at h
    rw [← h]
    cases lookupKey reg k <;> simp [specOf]
  | cons e rest ih =>
    intro reg reg₁ h k
    obtain ⟨f, t⟩ := e
    unfold registerAll at h
    cases ha : add_handler reg f t with
    | error e₁ => rw [ha] at h; exact absurd h (by simp)
    | ok r₁ =>
      rw [ha] at h
      have hk := ih r₁ reg₁ h k
      rw [hk, add_handler_lookup reg f t r₁ ha k, specOf_cons]
      by_cases hkt : k = t
      · subst hkt
        rw [if_pos rfl, if_pos rfl]
        cases lookupKey reg k <;> simp
      · rw [if_neg hkt]
        have h2 : (if t = k then ((f, f.argc) :: specOf rest k) else specOf rest k)
            = specOf rest k := if_neg fun hh => hkt hh.symm
        rw [h2]

theorem initRegistry_lookup_mem (σ ρ : Type) (k : String) (h : k ∈ message_types) :
    lookupKey (initRegistry σ ρ) k = some [] := by
  simp only [message_types, List.mem_cons, List.mem_singleton] at h
  rcases h with rfl | rfl | rfl | rfl | rfl | rfl | rfl | rfl | rfl | h
  any_goals rfl
  exact absurd h (List.not_mem_nil k)

theorem initRegistry_lookup_all (σ ρ : Type) :
    lookupKey (initRegistry σ ρ) "all" = some [] := rfl

/-- C2: for any registered handler set reached by a sequence of successful
registrations from the initial registry, `get_handlers` returns exactly the
type-specific handlers in registration order followed by the all handlers
in registration order, for every known message type, including types with
no type-specific handlers; being a pure function of the registry, it does
not mutate it. -/
theorem resolve_order (σ ρ : Type) (entries : List (Handler σ ρ × String))
    (reg : Registry σ ρ) (t : String)
    (hreg : registerAll (initRegistry σ ρ) entries = .ok reg)
    (ht : t ∈ message_types) :
    get_handlers reg t = .ok (specOf entries t ++ specOf entries "all") := by
  have h1 := registerAll_lookup entries _ _ hreg t
  have h2 := registerAll_lookup entries _ _ hreg "all"
  rw [initRegistry_lookup_mem σ ρ t ht] at h1
  rw [initRegistry_lookup_all] at h2
  simp only [Option.map_some', List.nil_append] at h1 h2
  unfold get_handlers
  rw [h1, h2]

/-- C8 counterexample: registering a handler under the unknown type string
bogus is not silently permitted; subscripting the missing key raises
KeyError, so `add_handler` fails. -/
theorem unknown_type_not_permitted_cex :
    add_handler (initRegistry Nat Nat) (.h0 (fun _ => .ok none)) "bogus"
      = .error () := rfl

/-- C8 amended: registering a handler under a message-type string that is
not a key of the registry (not one of the known tags or all) fails with a
KeyError from the dict subscript, rather than being silently permitted. -/
theorem unknown_type_raises (σ ρ : Type) (reg : Registry σ ρ) (f : Handler σ ρ)
    (t : String) (h : lookupKey reg t = none) :
    add_handler reg f t = .error () := by
  unfold add_handler
  rw [h]

theorem unknown_type_raises_witness :
    lookupKey (initRegistry Nat Nat) "bogus" = none ∧
    add_handler (initRegistry Nat Nat) (.h1 (fun _ => .ok (some 1))) "bogus"
      = .error () :=
  ⟨rfl, unknown_type_raises Nat Nat (initRegistry Nat Nat)
    (.h1 (fun _ => .ok (some 1))) "bogus" rfl⟩

/-- C6: the dispatch engine builds the argument list by truncating
[message, session] to the arity recorded at registration: arity 0 gives no
arguments, arity 1 the message only, arity 2 the message and the session;
calling a handler on the list built for its arity passes exactly those
arguments; and registration records with each callback its declared
arity. -/
theorem arity_truncation (σ ρ : Type) (m : Message) (s : Option σ)
    (g0 : Unit → Except Unit (Option ρ)) (g1 : Message → Except Unit (Option ρ))
    (g2 : Message → Option σ → Except Unit (Option ρ × (σ → σ)))
    (reg reg₁ : Registry σ ρ) (f : Handler σ ρ) (t : String)
    (h : add_handler reg f t = .ok reg₁) :
    buildArgs m s 0 = [] ∧
    buildArgs m s 1 = [PyArg.msg m] ∧
    buildArgs m s 2 = [PyArg.msg m, PyArg.sess s] ∧
    Handler.call (.h0 g0) (buildArgs m s 0) = (g0 ()).map (fun r => (r, fun x => x)) ∧
    Handler.call (.h1 g1) (buildArgs m s 1) = (g1 m).map (fun r => (r, fun x => x)) ∧
    Handler.call (.h2 g2) (buildArgs m s 2) = g2 m s ∧
    lookupKey reg₁ t = (lookupKey reg t).map (fun lst => lst ++ [(f, f.argc)]) := by
  refine ⟨rfl, rfl, rfl, rfl, rfl, rfl, ?_⟩
  rw [add_handler_lookup reg f t reg₁ h t, if_pos rfl]

theorem runHandlers_step_error (m : Message) (idv : Option String)
    (h : Handler σ ρ) (n : Nat) (rest : List (Handler σ ρ × Nat))
    (sess : Option σ) (stor : Option (Store σ)) (i : Nat)
    (hc : Handler.call h (buildArgs m sess n) = .error ()) :
    runHandlers m idv ((h, n) :: rest) sess stor i =
      ⟨none, stor, sess, [i], [], [], true⟩ := by
  unfold runHandlers
  rw [hc]

theorem runHandlers_step_reply (m : Message) (idv : Option String)
    (h : Handler σ ρ) (n : Nat) (rest : List (Handler σ ρ × Nat))
    (sess : Option σ) (stor : Option (Store σ)) (i : Nat)
    (rep : ρ) (eff : σ → σ)
    (hc : Handler.call h (buildArgs m sess n) = .ok (some rep, eff)) :
    runHandlers m idv ((h, n) :: rest) sess stor i =
      ⟨some rep,
       if stor.isSome && truthyId idv
         then stor.map (fun st => storeSet st (idv.getD "") (sess.map eff)) else stor,
       sess.map eff, [i],
       if stor.isSome && truthyId idv
         then [(idv.getD "", sess.map eff)] else [],
       [], false⟩ := by
  unfold runHandlers
  rw [hc]

theorem runHandlers_step_none (m : Message) (idv : Option String)
    (h : Handler σ ρ) (n : Nat) (rest : List (Handler σ ρ × Nat))
    (sess : Option σ) (stor : Option (Store σ)) (i : Nat) (eff : σ → σ)
    (hc : Handler.call h (buildArgs m sess n) = .ok (none, eff)) :
    runHandlers m idv ((h, n) :: rest) sess stor i =
      (let sess₁ := sess.map eff
       let stor₁ := if stor.isSome && truthyId idv
         then stor.map (fun st => storeSet st (idv.getD "") sess₁) else stor
       let res := runHandlers m idv rest sess₁ stor₁ (i + 1)
       ⟨res.reply, res.store, res.sess, i :: res.invoked,
        (if stor.isSome && truthyId idv
          then [(idv.getD "", sess₁)] else []) ++ res.writes,
        res.reads, res.logged⟩) := by
  simp only [runHandlers, hc]

theorem runHandlers_append (m : Message) (idv : Option String)
    (pre hs : List (Handler σ ρ × Nat)) :
    ∀ (sess : Option σ) (stor : Option (Store σ)) (i : Nat),
    (runHandlers m idv pre sess stor i).reply = none →
    (runHandlers m idv pre sess stor i).logged = false →
    runHandlers m idv (pre ++ hs) sess stor i =
      (let P := runHandlers m idv pre sess stor i
       let Q := runHandlers m idv hs P.sess P.store (i + pre.length)
       ⟨Q.reply, Q.store, Q.sess, P.invoked ++ Q.invoked,
        P.writes ++ Q.writes, Q.reads, Q.logged⟩) := by
  induction pre with
  | nil =>
    intro sess stor i _ _
    simp only [List.nil_append, List.length_nil, Nat.add_zero, runHandlers]
  | cons p pre₁ ih =>
    intro sess stor i hrep hlog
    obtain ⟨h, n⟩ := p
    cases hc : Handler.call h (buildArgs m sess n) with
    | error e =>
      cases e
      rw [runHandlers_step_error m idv h n pre₁ sess stor i hc] at hlog
      exact absurd hlog (by simp)
    | ok out =>
      obtain ⟨r, eff⟩ := out
      cases r with
      | some rep =>
        rw [runHandlers_step_reply m idv h n pre₁ sess stor i rep eff hc] at hrep
        exact absurd hrep (by simp)
      | none =>
        rw [runHandlers_step_none m idv h n pre₁ sess stor i eff hc] at hrep hlog ⊢
        simp only at hrep hlog ⊢
        rw [List.cons_append,
          runHandlers_step_none m idv h n (pre₁ ++ hs) sess stor i eff hc]
        simp only
        rw [ih _ _ _ hrep hlog]
        simp only [List.length_cons]
        have hi : i + 1 + pre₁.length = i + (pre₁.length + 1) := by omega
        rw [hi]
        simp [List.append_assoc]

theorem runHandlers_clean_invoked (m : Message) (idv : Option String)
    (hs : List (Handler σ ρ × Nat)) :
    ∀ (sess : Option σ) (stor : Option (Store σ)) (i : Nat),
    (runHandlers m idv hs sess stor i).reply = none →
    (runHandlers m idv hs sess stor i).logged = false →
    (runHandlers m idv hs sess stor i).invoked = List.range' i hs.length := by
  induction hs with
  | nil => intro sess stor i _ _; rfl
  | cons p rest ih =>
    intro sess stor i hrep hlog
    obtain ⟨h, n⟩ := p
    cases hc : Handler.call h (buildArgs m sess n) with
    | error e =>
      cases e
      rw [runHandlers_step_error m idv h n rest sess stor i hc] at hlog
      exact absurd hlog (by simp)
    | ok out =>
      obtain ⟨r, eff⟩ := out
      cases r with
      | some rep =>
        rw [runHandlers_step_reply m idv h n rest sess stor i rep eff hc] at hrep
        exact absurd hrep (by simp)
      | none =>
        rw [runHandlers_step_none m idv h n rest sess stor i eff hc] at hrep hlog ⊢
        simp only at hrep hlog ⊢
        rw [ih _ _ _ hrep hlog]
        rfl

theorem range'_snoc (n : Nat) : ∀ i : Nat, List.range' i (n + 1) = List.range' i n ++ [i + n] := by
  induction n with
  | zero => intro i; rfl
  | succ n ih =>
    intro i
    have h1 : List.range' i (n + 1 + 1) = i :: List.range' (i + 1) (n + 1) := rfl
    have h2 : List.range' i (n + 1) = i :: List.range' (i + 1) n := rfl
    rw [h1, ih (i + 1), h2]
    simp [Nat.add_assoc, Nat.add_comm 1 n]

/-- C1: in a dispatch whose resolved handler list is pre ++ [h] ++ post,
when every handler of pre runs without raising and returns an empty
result, and the invocation of h returns a non-empty result rep, the
dispatch returns rep as the reply and the invoked positions are exactly
those of pre and h, in order: no handler of post is invoked. -/
theorem dispatch_first_truthy_wins (σ ρ : Type) (m : Message) (idv : Option String)
    (pre post : List (Handler σ ρ × Nat)) (h : Handler σ ρ) (n : Nat)
    (sess : Option σ) (stor : Option (Store σ)) (i : Nat) (rep : ρ) (eff : σ → σ)
    (hrep : (runHandlers m idv pre sess stor i).reply = none)
    (hlog : (runHandlers m idv pre sess stor i).logged = false)
    (hc : Handler.call h
      (buildArgs m (runHandlers m idv pre sess stor i).sess n) = .ok (some rep, eff)) :
    (runHandlers m idv (pre ++ (h, n) :: post) sess stor i).reply = some rep ∧
    (runHandlers m idv (pre ++ (h, n) :: post) sess stor i).invoked =
      List.range' i (pre.length + 1) ∧
    (runHandlers m idv (pre ++ (h, n) :: post) sess stor i).logged = false := by
  rw [runHandlers_append m idv pre ((h, n) :: post) sess stor i hrep hlog]
  simp only
  rw [runHandlers_step_reply m idv h n post _ _ _ rep eff hc]
  simp only
  refine ⟨trivial, ?_, trivial⟩
  rw [runHandlers_clean_invoked m idv pre sess stor i hrep hlog, range'_snoc]

/-- C3: in a dispatch whose resolved handler list is pre ++ [h] ++ post,
when every handler of pre runs without raising and returns an empty result,
and the invocation of h raises, the dispatch is aborted: the exception is
logged and not propagated, the dispatch returns empty, and the invoked
positions are exactly those of pre and h: no handler of post is invoked. -/
theorem dispatch_exception_aborts (σ ρ : Type) (m : Message) (idv : Option String)
    (pre post : List (Handler σ ρ × Nat)) (h : Handler σ ρ) (n : Nat)
    (sess : Option σ) (stor : Option (Store σ)) (i : Nat)
    (hrep : (runHandlers m idv pre sess stor i).reply = none)
    (hlog : (runHandlers m idv pre sess stor i).logged = false)
    (hc : Handler.call h
      (buildArgs m (runHandlers m idv pre sess stor i).sess n) = .error ()) :
    (runHandlers m idv (pre ++ (h, n) :: post) sess stor i).reply = none ∧
    (runHandlers m idv (pre ++ (h, n) :: post) sess stor i).logged = true ∧
    (runHandlers m idv (pre ++ (h, n) :: post) sess stor i).invoked =
      List.range' i (pre.length + 1) := by
  rw [runHandlers_append m idv pre ((h, n) :: post) sess stor i hrep hlog]
  simp only
  rw [runHandlers_step_error m idv h n post _ _ _ hc]
  simp only
  refine ⟨trivial, trivial, ?_⟩
  rw [runHandlers_clean_invoked m idv pre sess stor i hrep hlog, range'_snoc]

theorem runHandlers_reads (m : Message) (idv : Option String)
    (hs : List (Handler σ ρ × Nat)) :
    ∀ (sess : Option σ) (stor : Option (Store σ)) (i : Nat),
    (runHandlers m idv hs sess stor i).reads = [] := by
  induction hs with
  | nil => intro sess stor i; rfl
  | cons p rest ih =>
    intro sess stor i
    obtain ⟨h, n⟩ := p
    cases hc : Handler.call h (buildArgs m sess n) with
    | error e =>
      cases e
      rw [runHandlers_step_error m idv h n rest sess stor i hc]
    | ok out =>
      obtain ⟨r, eff⟩ := out
      cases r with
      | some rep => rw [runHandlers_step_reply m idv h n rest sess stor i rep eff hc]
      | none =>
        rw [runHandlers_step_none m idv h n rest sess stor i eff hc]
        simp only
        exact ih _ _ _

theorem runHandlers_persist (m : Message) (src : String)
    (htr : truthyId (some src) = true) (hs : List (Handler σ ρ × Nat)) :
    ∀ (sess : Option σ) (st : Store σ) (i : Nat),
    (runHandlers m (some src) hs sess (some st) i).logged = false →
    (runHandlers m (some src) hs sess (some st) i).writes.length =
      (runHandlers m (some src) hs sess (some st) i).invoked.length ∧
    (runHandlers m (some src) hs sess (some st) i).store =
      some ((runHandlers m (some src) hs sess (some st) i).writes.foldl
        (fun s kv => storeSet s kv.1 kv.2) st) := by
  induction hs with
  | nil => intro sess st i _; exact ⟨rfl, rfl⟩
  | cons p rest ih =>
    intro sess st i hlog
    obtain ⟨h, n⟩ := p
    cases hc : Handler.call h (buildArgs m sess n) with
    | error e =>
      cases e
      rw [runHandlers_step_error m (some src) h n rest sess (some st) i hc] at hlog
      exact absurd hlog (by simp)
    | ok out =>
      obtain ⟨r, eff⟩ := out
      cases r with
      | some rep =>
        rw [runHandlers_step_reply m (some src) h n rest sess (some st) i rep eff hc]
        simp [htr]
      | none =>
        rw [runHandlers_step_none m (some src) h n rest sess (some st) i eff hc]
          at hlog ⊢
        simp [htr] at hlog ⊢
        obtain ⟨ih1, ih2⟩ := ih (sess.map eff) (storeSet st src (sess.map eff))
          (i + 1) hlog
        refine ⟨by simp [ih1], ?_⟩
        rw [ih2]

theorem runHandlers_nowrite (m : Message) (idv : Option String)
    (hfa : truthyId idv = false) (hs : List (Handler σ ρ × Nat)) :
    ∀ (sess : Option σ) (stor : Option (Store σ)) (i : Nat),
    (runHandlers m idv hs sess stor i).writes = [] ∧
    (runHandlers m idv hs sess stor i).store = stor := by
  induction hs with
  | nil => intro sess stor i; exact ⟨rfl, rfl⟩
  | cons p rest ih =>
    intro sess stor i
    obtain ⟨h, n⟩ := p
    have hdo : (stor.isSome && truthyId idv) = false := by rw [hfa]; simp
    cases hc : Handler.call h (buildArgs m sess n) with
    | error e =>
      cases e
      rw [runHandlers_step_error m idv h n rest sess stor i hc]
      exact ⟨rfl, rfl⟩
    | ok out =>
      obtain ⟨r, eff⟩ := out
      cases r with
      | some rep =>
        rw [runHandlers_step_reply m idv h n rest sess stor i rep eff hc]
        simp only [hdo, if_false]
        exact ⟨rfl, rfl⟩
      | none =>
        rw [runHandlers_step_none m idv h n rest sess stor i eff hc]
        simp only [hdo, if_false]
        obtain ⟨ih1, ih2⟩ := ih (sess.map eff) stor (i + 1)
        exact ⟨by simp [ih1], ih2⟩

theorem get_reply_eq (reg : Registry σ ρ) (st : Store σ) (m : Message)
    (src : String) (hs : List (Handler σ ρ × Nat))
    (hsrc : m.source = some src) (hh : get_handlers reg m.type = .ok hs) :
    get_reply reg (some st) m =
      .ok { runHandlers m (some src) hs (storeGet st src) (some st) 0 with
            reads := src ::
              (runHandlers m (some src) hs (storeGet st src) (some st) 0).reads } := by
  unfold get_reply sessionInit
  rw [hsrc, hh]
  rfl

/-- C4: in a dispatch with a session store configured and a message whose
sender identifier is non-empty (truthy), if no handler raised then the
session was persisted to the store exactly once per handler invocation
(also for invocations returning an empty result), and the final store is
the starting store with all those writes applied in order; in particular
the write for the reply-producing invocation is applied before the reply is
returned. -/
theorem dispatch_persists_session (σ ρ : Type) (reg : Registry σ ρ)
    (st : Store σ) (m : Message) (src : String)
    (hs : List (Handler σ ρ × Nat)) (res : DispatchResult σ ρ)
    (hsrc : m.source = some src) (hne : src ≠ "")
    (hh : get_handlers reg m.type = .ok hs)
    (hres : get_reply reg (some st) m = .ok res)
    (hlog : res.logged = false) :
    res.writes.length = res.invoked.length ∧
    res.store = some (res.writes.foldl (fun s kv => storeSet s kv.1 kv.2) st) := by
  rw [get_reply_eq reg st m src hs hsrc hh] at hres
  simp only [Except.ok.injEq] at hres
  subst hres
  have htr : truthyId (some src) = true := by
    simp [truthyId, hne]
  exact runHandlers_persist m src htr hs (storeGet st src) st 0 hlog

/-- C10: in a dispatch with a session store configured and a message whose
source attribute has a falsy binary form (the empty string), the dispatch
reads the session for that identifier from the store, but performs no store
write after any handler invocation, and the final store is unchanged. -/
theorem dispatch_empty_source_no_write (σ ρ : Type) (reg : Registry σ ρ)
    (st : Store σ) (m : Message) (hs : List (Handler σ ρ × Nat))
    (res : DispatchResult σ ρ)
    (hsrc : m.source = some "")
    (hh : get_handlers reg m.type = .ok hs)
    (hres : get_reply reg (some st) m = .ok res) :
    res.reads = [""] ∧ res.writes = [] ∧ res.store = some st := by
  rw [get_reply_eq reg st m "" hs hsrc hh] at hres
  simp only [Except.ok.injEq] at hres
  subst hres
  have hfa : truthyId (some "") = false := rfl
  obtain ⟨h1, h2⟩ := runHandlers_nowrite m (some "") hfa hs (storeGet st "") (some st) 0
  refine ⟨?_, h1, h2⟩
  simp [runHandlers_reads]

theorem lexLe_total : ∀ as bs : List Char, lexLe as bs = true ∨ lexLe bs as = true := by
  intro as
  induction as with
  | nil => intro bs; left; rfl
  | cons a as ih =>
    intro bs
    cases bs with
    | nil => right; rfl
    | cons b bs =>
      by_cases h1 : a.toNat < b.toNat
      · left; simp [lexLe, h1]
      · by_cases h2 : b.toNat < a.toNat
        · right; simp [lexLe, h2]
        · rcases ih bs with h | h
          · left; simp [lexLe, h1, h2, h]
          · right; simp [lexLe, h1, h2, h]

theorem strLe_total (a b : String) : strLe a b = true ∨ strLe b a = true :=
  lexLe_total a.data b.data

theorem chain_insert (x : String) (l : List String) :
    ∀ y : String, strLe y x = true →
    List.Chain' (fun a b => strLe a b = true) (y :: l) →
    List.Chain' (fun a b => strLe a b = true) (y :: insertSorted x l) := by
  induction l with
  | nil =>
    intro y hyx _
    simp [insertSorted, List.chain'_cons, hyx]
  | cons z zs ih =>
    intro y hyx hch
    rw [List.chain'_cons] at hch
    unfold insertSorted
    by_cases hxz : strLe x z = true
    · rw [if_pos hxz]
      exact List.chain'_cons.mpr ⟨hyx, List.chain'_cons.mpr ⟨hxz, hch.2⟩⟩
    · rw [if_neg (by simpa using hxz)]
      have hzx : strLe z x = true := (strLe_total x z).resolve_left hxz
      exact List.chain'_cons.mpr ⟨hch.1, ih z hzx hch.2⟩

theorem insertSorted_chain (x : String) (l : List String)
    (h : List.Chain' (fun a b => strLe a b = true) l) :
    List.Chain' (fun a b => strLe a b = true) (insertSorted x l) := by
  cases l with
  | nil => simp [insertSorted]
  | cons y ys =>
    unfold insertSorted
    by_cases hxy : strLe x y = true
    · rw [if_pos hxy]
      exact List.chain'_cons.mpr ⟨hxy, h⟩
    · rw [if_neg (by simpa using hxy)]
      have hyx : strLe y x = true := (strLe_total x y).resolve_left hxy
      exact chain_insert x ys y hyx h

theorem pySort_chain (l : List String) :
    List.Chain' (fun a b => strLe a b = true) (pySort l) := by
  induction l with
  | nil => simp [pySort]
  | cons a l ih => exact insertSorted_chain a (pySort l) ih

theorem insertSorted_perm (x : String) (l : List String) :
    (insertSorted x l).Perm (x :: l) := by
  induction l with
  | nil => exact List.Perm.refl _
  | cons y ys ih =>
    unfold insertSorted
    by_cases hxy : strLe x y = true
    · rw [if_pos hxy]
    · rw [if_neg (by simpa using hxy)]
      exact (ih.cons y).trans (List.Perm.swap x y ys)

theorem pySort_perm (l : List String) : (pySort l).Perm l := by
  induction l with
  | nil => exact List.Perm.refl _
  | cons a l ih => exact (insertSorted_perm a (pySort l)).trans (ih.cons a)

/-- C5: the verifier returns true exactly when the supplied signature equals
the lowercase hexadecimal SHA-1 digest of the UTF-8 bytes of the
concatenation of the three strings token, timestamp and nonce taken in
sorted order; `pySort` of the triple is lexicographically sorted (by code
point) and a permutation of the triple, so that concatenation is the sorted
concatenation the claim names; any other supplied signature yields
false. -/
theorem signature_check_iff (token timestamp nonce signature : String) :
    (check_signature token timestamp nonce signature = true ↔
      signature =
        sha1_hexdigest (utf8Bytes (String.join (pySort [token, timestamp, nonce])))) ∧
    List.Chain' (fun a b => strLe a b = true) (pySort [token, timestamp, nonce]) ∧
    (pySort [token, timestamp, nonce]).Perm [token, timestamp, nonce] := by
  refine ⟨?_, pySort_chain _, pySort_perm _⟩
  unfold check_signature
  simp only [beq_iff_eq]
  exact eq_comm

/-- C7: building a content filter from a single literal string registers
under the text tag an arity-2 handler wrapping the original; calling that
handler delegates to the wrapped handler with the truncated argument list
exactly when the message content equals the literal, and yields an empty
result otherwise; content hi matches the literal hi while hi there does
not. -/
theorem content_filter_literal (σ ρ : Type) (lit : String) (f : Handler σ ρ)
    (m : Message) (s : Option σ) (reg : Registry σ ρ)
    (l : List (Handler σ ρ × Nat))
    (hl : lookupKey reg "text" = some l) :
    filter_single_step (.lit lit) f reg =
      (setKey reg "text" (l ++ [(filteredHandler (contentEq lit) f, 2)]), false) ∧
    Handler.call (filteredHandler (contentEq lit) f) [PyArg.msg m, PyArg.sess s] =
      (if m.content = lit then Handler.call f (buildArgs m s f.argc)
       else .ok (none, fun x => x)) ∧
    contentEq "hi" ⟨"text", none, "hi", ""⟩ = true ∧
    contentEq "hi" ⟨"text", none, "hi there", ""⟩ = false := by
  refine ⟨?_, ?_, rfl, rfl⟩
  · unfold filter_single_step filter_validate add_handler
    rw [hl]
    rfl
  · show (if contentEq lit m then Handler.call f (buildArgs m s f.argc)
      else .ok (none, fun x => x)) = _
    unfold contentEq
    by_cases h : m.content = lit
    · rw [if_pos (by simpa using h), if_pos h]
    · rw [if_neg (by simpa using h), if_neg h]

theorem applyMulti_valid_step (t : FilterTarget) (f : Handler σ ρ)
    (reg : Registry σ ρ) (l : List (Handler σ ρ × Nat))
    (hv : t ≠ FilterTarget.bad)
    (hl : lookupKey reg "text" = some l) :
    filter_single_step t f reg =
      (setKey reg "text" (l ++ [(filteredHandler (chkOf t) f, 2)]), false) := by
  cases t with
  | lit s =>
    unfold filter_single_step filter_validate chkOf add_handler
    rw [hl]
    rfl
  | rex g =>
    unfold filter_single_step filter_validate chkOf add_handler
    rw [hl]
    rfl
  | bad => exact absurd rfl hv

theorem applyMulti_nonatomic (f : Handler σ ρ) (rest : List FilterTarget) :
    ∀ (vs : List FilterTarget) (reg : Registry σ ρ) (l : List (Handler σ ρ × Nat)),
    (∀ t ∈ vs, t ≠ FilterTarget.bad) →
    lookupKey reg "text" = some l →
    applyMulti f (vs ++ FilterTarget.bad :: rest) reg = ((applyMulti f vs reg).1, true) ∧
    (applyMulti f vs reg).2 = false ∧
    lookupKey (applyMulti f vs reg).1 "text" =
      some (l ++ vs.map (fun t => (filteredHandler (chkOf t) f, 2))) := by
  intro vs
  induction vs with
  | nil =>
    intro reg l _ hl
    refine ⟨?_, rfl, by simpa using hl⟩
    show applyMulti f (FilterTarget.bad :: rest) reg = (reg, true)
    unfold applyMulti filter_single_step filter_validate
    rfl
  | cons t vs₁ ih =>
    intro reg l hv hl
    have hvt : t ≠ FilterTarget.bad := hv t (by simp)
    have hstep := applyMulti_valid_step t f reg l hvt hl
    have hl₁ : lookupKey (setKey reg "text" (l ++ [(filteredHandler (chkOf t) f, 2)]))
        "text" = some (l ++ [(filteredHandler (chkOf t) f, 2)]) := by
      rw [lookup_setKey, if_pos rfl, hl]
      rfl
    have hv₁ : ∀ u ∈ vs₁, u ≠ FilterTarget.bad := fun u hu => hv u (by simp [hu])
    obtain ⟨ih1, ih2, ih3⟩ := ih (setKey reg "text"
      (l ++ [(filteredHandler (chkOf t) f, 2)])) (l ++ [(filteredHandler (chkOf t) f, 2)])
      hv₁ hl₁
    have hcons : ∀ (args : List FilterTarget),
        applyMulti f (t :: args) reg =
          applyMulti f args (setKey reg "text"
            (l ++ [(filteredHandler (chkOf t) f, 2)])) := by
      intro args
      conv_lhs => rw [applyMulti]
      rw [hstep]
    refine ⟨?_, ?_, ?_⟩
    · rw [List.cons_append, hcons (vs₁ ++ FilterTarget.bad :: rest), hcons vs₁, ih1]
    · rw [hcons vs₁]; exact ih2
    · rw [hcons vs₁, ih3]
      simp

/-- C9: when the content filter is given multiple targets, the call itself
returns the decorator without validating any target; the per-target
validation runs only when the decorator is applied to a handler, and at the
first invalid target the application stops with the TypeError raised while
the filtered handlers for all valid targets preceding it are already
registered under the text tag: registration of a multi-target filter is
not atomic on error. -/
theorem multi_filter_nonatomic (σ ρ : Type) (vs rest : List FilterTarget)
    (f : Handler σ ρ) (reg : Registry σ ρ) (l : List (Handler σ ρ × Nat))
    (hv : ∀ t ∈ vs, t ≠ FilterTarget.bad)
    (hl : lookupKey reg "text" = some l)
    (hlen : 1 < (vs ++ FilterTarget.bad :: rest).length) :
    filter_call (σ := σ) (ρ := ρ) (vs ++ FilterTarget.bad :: rest) =
      .ok (fun g rg => applyMulti g (vs ++ FilterTarget.bad :: rest) rg) ∧
    applyMulti f (vs ++ FilterTarget.bad :: rest) reg = ((applyMulti f vs reg).1, true) ∧
    (applyMulti f vs reg).2 = false ∧
    lookupKey (applyMulti f vs reg).1 "text" =
      some (l ++ vs.map (fun t => (filteredHandler (chkOf t) f, 2))) := by
  refine ⟨?_, applyMulti_nonatomic f rest vs reg l hv hl⟩
  unfold filter_call
  rw [if_pos hlen]

/-- Sample text message with a non-empty sender. -/
def mPing : Message := ⟨"text", some "user1", "ping", ""⟩

/-- Sample text message without a source attribute. -/
def mHi : Message := ⟨"text", none, "hi", ""⟩

/-- Sample text message whose source is the empty string. -/
def mEmptySrc : Message := ⟨"text", some "", "hi", ""⟩

/-- Arity-1 callback returning an empty result. -/
def hNone : Handler Nat Nat := .h1 (fun _ => .ok none)

/-- Arity-1 callback returning the reply 7. -/
def hSeven : Handler Nat Nat := .h1 (fun _ => .ok (some 7))

/-- Arity-1 callback that raises. -/
def hBoom : Handler Nat Nat := .h1 (fun _ => .error ())

/-- Arity-2 callback that mutates the session and returns empty. -/
def hSess : Handler Nat Nat := .h2 (fun _ _ => .ok (none, fun n => n + 1))

/-- Arity-0 callback returning an empty result. -/
def hEmpty : Handler Nat Nat := .h0 (fun _ => .ok none)

theorem dispatch_first_truthy_wins_witness :
    (runHandlers mPing none [(hNone, 1)] none none 0).reply = none ∧
    (runHandlers mPing none [(hNone, 1)] none none 0).logged = false ∧
    Handler.call hSeven
      (buildArgs mPing (runHandlers mPing none [(hNone, 1)] none none 0).sess 1) =
      .ok (some 7, fun s => s) ∧
    ((runHandlers mPing none ([(hNone, 1)] ++ (hSeven, 1) :: [(hBoom, 1)]) none none 0).reply
        = some 7 ∧
     (runHandlers mPing none ([(hNone, 1)] ++ (hSeven, 1) :: [(hBoom, 1)]) none none 0).invoked
        = List.range' 0 2 ∧
     (runHandlers mPing none ([(hNone, 1)] ++ (hSeven, 1) :: [(hBoom, 1)]) none none 0).logged
        = false) :=
  ⟨rfl, rfl, rfl,
   dispatch_first_truthy_wins Nat Nat mPing none [(hNone, 1)] [(hBoom, 1)] hSeven 1
     none none 0 7 (fun s => s) rfl rfl rfl⟩

theorem dispatch_exception_aborts_witness :
    (runHandlers mPing none [(hNone, 1)] none none 0).reply = none ∧
    (runHandlers mPing none [(hNone, 1)] none none 0).logged = false ∧
    Handler.call hBoom
      (buildArgs mPing (runHandlers mPing none [(hNone, 1)] none none 0).sess 1) =
      .error () ∧
    ((runHandlers mPing none ([(hNone, 1)] ++ (hBoom, 1) :: [(hSeven, 1)]) none none 0).reply
        = none ∧
     (runHandlers mPing none ([(hNone, 1)] ++ (hBoom, 1) :: [(hSeven, 1)]) none none 0).logged
        = true ∧
     (runHandlers mPing none ([(hNone, 1)] ++ (hBoom, 1) :: [(hSeven, 1)]) none none 0).invoked
        = List.range' 0 2) :=
  ⟨rfl, rfl, rfl,
   dispatch_exception_aborts Nat Nat mPing none [(hNone, 1)] [(hSeven, 1)] hBoom 1
     none none 0 rfl rfl rfl⟩

/-- Registration sequence used in the C2 witness. -/
def entsC2 : List (Handler Nat Nat × String) :=
  [(hNone, "text"), (hEmpty, "all"), (hSeven, "text")]

/-- The registry produced by the C2 registration sequence. -/
def regC2 : Registry Nat Nat :=
  match registerAll (initRegistry Nat Nat) entsC2 with
  | .ok r => r
  | .error _ => []

theorem resolve_order_witness :
    registerAll (initRegistry Nat Nat) entsC2 = .ok regC2 ∧
    "text" ∈ message_types ∧
    get_handlers regC2 "text" = .ok (specOf entsC2 "text" ++ specOf entsC2 "all") :=
  ⟨rfl, by decide, resolve_order Nat Nat entsC2 regC2 "text" rfl (by decide)⟩

/-- Registry holding one arity-2 text handler, for the C4 and C10
witnesses. -/
def regC4 : Registry Nat Nat :=
  match add_handler (initRegistry Nat Nat) hSess "text" with
  | .ok r => r
  | .error _ => []

/-- Dispatch outcome of the C4 witness. -/
def resC4 : DispatchResult Nat Nat :=
  match get_reply regC4 (some []) mPing with
  | .ok r => r
  | .error _ => ⟨none, none, none, [], [], [], true⟩

theorem dispatch_persists_session_witness :
    mPing.source = some "user1" ∧ "user1" ≠ "" ∧
    get_handlers regC4 mPing.type = .ok [(hSess, 2)] ∧
    get_reply regC4 (some []) mPing = .ok resC4 ∧
    resC4.logged = false ∧
    (resC4.writes.length = resC4.invoked.length ∧
     resC4.store = some (resC4.writes.foldl (fun s kv => storeSet s kv.1 kv.2) [])) :=
  ⟨rfl, by decide, rfl, rfl, rfl,
   dispatch_persists_session Nat Nat regC4 [] mPing "user1" [(hSess, 2)] resC4
     rfl (by decide) rfl rfl rfl⟩

/-- Dispatch outcome of the C10 witness. -/
def resC10 : DispatchResult Nat Nat :=
  match get_reply regC4 (some [("", some 3)]) mEmptySrc with
  | .ok r => r
  | .error _ => ⟨none, none, none, [], [], [], true⟩

theorem dispatch_empty_source_no_write_witness :
    mEmptySrc.source = some "" ∧
    get_handlers regC4 mEmptySrc.type = .ok [(hSess, 2)] ∧
    get_reply regC4 (some [("", some 3)]) mEmptySrc = .ok resC10 ∧
    (resC10.reads = [""] ∧ resC10.writes = [] ∧ resC10.store = some [("", some 3)]) :=
  ⟨rfl, rfl, rfl,
   dispatch_empty_source_no_write Nat Nat regC4 [("", some 3)] mEmptySrc [(hSess, 2)]
     resC10 rfl rfl rfl⟩

/-- Registry holding one click handler, for the C6 witness. -/
def regC6 : Registry Nat Nat :=
  match add_handler (initRegistry Nat Nat) hSeven "click" with
  | .ok r => r
  | .error _ => []

theorem arity_truncation_witness :
    add_handler (initRegistry Nat Nat) hSeven "click" = .ok regC6 ∧
    (buildArgs mPing (none : Option Nat) 0 = [] ∧
     buildArgs mPing (none : Option Nat) 1 = [PyArg.msg mPing] ∧
     buildArgs mPing (none : Option Nat) 2 = [PyArg.msg mPing, PyArg.sess none] ∧
     Handler.call (.h0 (fun _ => (.ok none : Except Unit (Option Nat))))
       (buildArgs mPing (none : Option Nat) 0) = .ok (none, fun x => x) ∧
     Handler.call (.h1 (fun _ => (.ok none : Except Unit (Option Nat))))
       (buildArgs mPing (none : Option Nat) 1) = .ok (none, fun x => x) ∧
     Handler.call (.h2 (fun _ _ =>
         (.ok (none, fun x => x) : Except Unit (Option Nat × (Nat → Nat)))))
       (buildArgs mPing (none : Option Nat) 2) = .ok (none, fun x => x) ∧
     lookupKey regC6 "click" = some [(hSeven, 1)]) :=
  ⟨rfl,
   arity_truncation Nat Nat mPing none
     (fun _ => .ok none) (fun _ => .ok none) (fun _ _ => .ok (none, fun x => x))
     (initRegistry Nat Nat) regC6 hSeven "click" rfl⟩

theorem content_filter_literal_witness :
    lookupKey (initRegistry Nat Nat) "text" = some [] ∧
    (filter_single_step (.lit "hi") hSeven (initRegistry Nat Nat) =
       (setKey (initRegistry Nat Nat) "text"
         [(filteredHandler (contentEq "hi") hSeven, 2)], false) ∧
     Handler.call (filteredHandler (contentEq "hi") hSeven)
       [PyArg.msg mHi, PyArg.sess (none : Option Nat)] =
       (if mHi.content = "hi" then Handler.call hSeven (buildArgs mHi none hSeven.argc)
        else .ok (none, fun x => x)) ∧
     contentEq "hi" ⟨"text", none, "hi", ""⟩ = true ∧
     contentEq "hi" ⟨"text", none, "hi there", ""⟩ = false) :=
  ⟨rfl, content_filter_literal Nat Nat "hi" hSeven mHi none (initRegistry Nat Nat) [] rfl⟩

/-- Valid targets preceding the invalid one in the C9 witness. -/
def vsC9 : List FilterTarget := [FilterTarget.lit "a"]

/-- Targets following the invalid one in the C9 witness. -/
def restC9 : List FilterTarget := [FilterTarget.lit "b"]

theorem multi_filter_nonatomic_witness :
    (∀ t ∈ vsC9, t ≠ FilterTarget.bad) ∧
    lookupKey (initRegistry Nat Nat) "text" = some [] ∧
    1 < (vsC9 ++ FilterTarget.bad :: restC9).length ∧
    (filter_call (σ := Nat) (ρ := Nat) (vsC9 ++ FilterTarget.bad :: restC9) =
       .ok (fun g rg => applyMulti g (vsC9 ++ FilterTarget.bad :: restC9) rg) ∧
     applyMulti hSeven (vsC9 ++ FilterTarget.bad :: restC9) (initRegistry Nat Nat) =
       ((applyMulti hSeven vsC9 (initRegistry Nat Nat)).1, true) ∧
     (applyMulti hSeven vsC9 (initRegistry Nat Nat)).2 = false ∧
     lookupKey (applyMulti hSeven vsC9 (initRegistry Nat Nat)).1 "text" =
       some ([] ++ vsC9.map (fun t => (filteredHandler (chkOf t) hSeven, 2)))) := by
  have hv : ∀ t ∈ vsC9, t ≠ FilterTarget.bad := by
    intro t ht
    simp only [vsC9, List.mem_singleton] at ht
    subst ht
    intro hcon
    exact FilterTarget.noConfusion hcon
  exact ⟨hv, rfl, by decide,
    multi_filter_nonatomic Nat Nat vsC9 restC9 hSeven (initRegistry Nat Nat) []
      hv rfl (by decide)⟩

set_option maxRecDepth 100000 in
/-- Sanity check of the SHA-1 model against the standard test vector for
the three-byte message abc. -/
theorem sha1_model_vector_abc :
    sha1_hexdigest (utf8Bytes "abc") = "a9993e364706816aba3e25717850c26c9cd0d89d" := by
  decide

set_option maxRecDepth 100000 in
/-- Sanity check of the full signature computation: the digest of the
sorted concatenation 123456secret. -/
theorem sha1_model_vector_sorted_concat :
    sha1_hexdigest (utf8Bytes "123456secret")
      = "c5aa204c1a554e42ed682459e91f7c86b1d34acb" := by
  decide

set_option maxRecDepth 100000 in
/-- Concrete run of the verifier on the matching signature. -/
theorem check_signature_example_true :
    check_signature "secret" "123" "456"
      "c5aa204c1a554e42ed682459e91f7c86b1d34acb" = true := by
  decide

set_option maxRecDepth 100000 in
/-- Concrete run of the verifier on a non-matching signature. -/
theorem check_signature_example_false :
    check_signature "secret" "123" "456"
      "0000000000000000000000000000000000000000" = false := by
  decide

end WeRoBot
